import Mathlib

/-!
Verification of the kubernetes-mesos scheduler plugin, executor and mesos
client against their natural-language specification.

The scheduler side (`KMS` namespace) is a shallow embedding of
`pkg/scheduler/plugin.go`: the binder, the `Schedule` path, the
error handler and the deleter.  The executor side (`KEX` namespace) embeds
the slave-side `KubernetesExecutor` (package `executor`).  The mesos client
(`KMC` namespace) embeds `mesosClient.httpDo` of `pkg/cloud/mesos/client.go`
as a small transition system.

External collaborators (control-plane REST client, mesos driver, container
runtime, YAML codec) are modelled by boolean/option parameters describing
the outcome of each call, and by an event trace recording the requests the
code issues against them.
-/

namespace KMS

/-- Modelled from the spec: PodTask state tag ∈ {pending, running, finished};
in the source (`pkg/scheduler/podtask.go`, not under src/) the state is derived
from which registry map holds the task. -/
inductive stateType
| statePending
| stateRunning
| stateFinished
deriving DecidableEq, Repr

/-- A mesos resource offer as the plugin sees it: identifier, slave identifier
and the `HasExpired()` observation of a perishable offer. -/
structure Offer where
  oid : String
  slaveId : String
  hasExpired : Bool
deriving DecidableEq, Repr

/-- Modelled from the spec: a PodTask carries a task identifier, its pod-key,
an optional owning offer, a synthesized TaskInfo payload (modelled as a flag
recording whether it is filled), the `launched` and `deleted` flags, the
cached pod status host, the state tag, and an acceptance predicate for
incoming offers (modelled as the set of offer ids the task accepts).
The struct itself lives in `pkg/scheduler/podtask.go`, not under src/. -/
structure PodTask where
  tid : String
  podKey : String
  offerId : Option String
  taskInfoSet : Bool
  launched : Bool
  deleted : Bool
  statusHost : String
  state : stateType
  acceptIds : List String
deriving DecidableEq, Repr

/-- Modelled from the spec: `task.hasAcceptedOffer()` — the task has an offer
attached and its TaskInfo synthesized from it. -/
def PodTask.hasAcceptedOffer (t : PodTask) : Bool :=
  t.offerId.isSome && t.taskInfoSet

/-- Modelled from the spec: `task.ClearTaskInfo()` detaches the offer and
clears the synthesized TaskInfo. -/
def PodTask.clearTaskInfo (t : PodTask) : PodTask :=
  { t with offerId := none, taskInfoSet := false }

/-- Modelled from the spec: `task.FillTaskInfo(offer)` attaches the offer to
the task and fills the TaskInfo from it. -/
def PodTask.fillTaskInfo (t : PodTask) (o : Offer) : PodTask :=
  { t with offerId := some o.oid, taskInfoSet := true }

/-- Modelled from the spec: `task.AcceptOffer(offer)` — the task's acceptance
predicate for incoming offers. -/
def PodTask.acceptOffer (t : PodTask) (o : Offer) : Bool :=
  t.acceptIds.contains o.oid

/-- Modelled from the spec: the offer registry membership — `Get` and
`Invalidate` as used by the plugin (`pkg/scheduler/offers.go`, not under
src/). -/
structure OfferRegistry where
  entries : List Offer
deriving DecidableEq, Repr

/-- `offers().Get(id)`: look the offer up by id. -/
def OfferRegistry.get (r : OfferRegistry) (id : String) : Option Offer :=
  r.entries.find? (fun o => o.oid == id)

/-- `offers().Invalidate(id)`: remove the offer from the registry. -/
def OfferRegistry.invalidate (r : OfferRegistry) (id : String) : OfferRegistry :=
  ⟨r.entries.filter (fun o => o.oid != id)⟩

/-- Requests the plugin issues against its collaborators, recorded as a
trace: `offer.Release()`, `offers().Invalidate(id)` and
`driver.KillTask(taskId)`. -/
inductive Event
| offerReleased (id : String)
| offerInvalidated (id : String)
| killRequested (tid : String)
deriving DecidableEq, Repr

/-- The state the binder touches: the offer registry, the task being bound,
and the trace of collaborator requests. -/
structure BindState where
  registry : OfferRegistry
  task : PodTask
  events : List Event
deriving DecidableEq, Repr

/-- Shared failure path of `binder.bind` (plugin.go lines 169-171): release
the task's offer and clear its TaskInfo. -/
def releaseAndClear (st : BindState) : BindState :=
  { st with
    task := st.task.clearTaskInfo,
    events := st.events ++ [Event.offerReleased (st.task.offerId.getD "")] }

/-- `binder.bind` (plugin.go lines 140-172).  The outcomes of the three
external calls — `prepareTaskForLaunch` (REST GET + YAML marshal), the
binding POST, and `driver.LaunchTasks` — are the parameters `prepareOk`,
`postOk`, `launchOk`.  Returns the error (`some msg`) or success (`none`),
with the new state. -/
def binderBind (st : BindState) (bindingHost : String)
    (prepareOk postOk launchOk : Bool) : Option String × BindState :=
  if !st.task.hasAcceptedOffer then
    (some "task has not accepted a valid offer", st)
  else
    let offerId := st.task.offerId.getD ""
    match st.registry.get offerId with
    | none => (some "failed prior to launchTask due to expired offer", releaseAndClear st)
    | some offer =>
      if offer.hasExpired then
        (some "failed prior to launchTask due to expired offer", releaseAndClear st)
      else if prepareOk && postOk && launchOk then
        (none,
         { st with
           registry := st.registry.invalidate offerId,
           task := { st.task with statusHost := bindingHost, launched := true },
           events := st.events ++ [Event.offerInvalidated offerId] })
      else
        (some "Failed to launch task", releaseAndClear st)

theorem get_invalidate_self (r : OfferRegistry) (id : String) :
    (r.invalidate id).get id = none := by
  simp only [OfferRegistry.get, OfferRegistry.invalidate]
  rw [List.find?_eq_none]
  intro o ho
  have := (List.mem_filter.mp ho).2
  simpa [bne_iff_ne] using this

/-- C1: a task observed pending with an accepted offer at bind time ends in
exactly one of two outcomes: (a) success — `launched` set and the consumed
offer invalidated in the registry, or (b) an error — the offer released, the
TaskInfo cleared, and the task left in state pending. -/
theorem bind_dichotomy (st : BindState) (host : String) (p q l : Bool)
    (hstate : st.task.state = stateType.statePending)
    (hacc : st.task.hasAcceptedOffer = true) :
    ((binderBind st host p q l).1 = none ∧
       ((binderBind st host p q l).2).task.launched = true ∧
       ((binderBind st host p q l).2).registry.get (st.task.offerId.getD "") = none ∧
       Event.offerInvalidated (st.task.offerId.getD "") ∈ ((binderBind st host p q l).2).events)
  ∨ ((binderBind st host p q l).1 ≠ none ∧
       Event.offerReleased (st.task.offerId.getD "") ∈ ((binderBind st host p q l).2).events ∧
       ((binderBind st host p q l).2).task.taskInfoSet = false ∧
       ((binderBind st host p q l).2).task.offerId = none ∧
       ((binderBind st host p q l).2).task.state = stateType.statePending) := by
  unfold binderBind
  rw [hacc]
  simp only [Bool.not_true, Bool.false_eq_true, if_false]
  cases hget : st.registry.get (st.task.offerId.getD "") with
  | none =>
    right
    simp [releaseAndClear, PodTask.clearTaskInfo, hstate]
  | some offer =>
    by_cases hexp : offer.hasExpired
    · right
      simp [hexp, releaseAndClear, PodTask.clearTaskInfo, hstate]
    · by_cases hok : p && q && l
      · left
        simp [hexp, hok, get_invalidate_self]
      · right
        simp [hexp, hok, releaseAndClear, PodTask.clearTaskInfo, hstate]

def bindStW : BindState :=
  { registry := ⟨[⟨"o1", "s1", false⟩]⟩,
    task := { tid := "t1", podKey := "default/p1", offerId := some "o1",
              taskInfoSet := true, launched := false, deleted := false,
              statusHost := "", state := stateType.statePending,
              acceptIds := ["o1"] },
    events := [] }

theorem bind_dichotomy_witness :
    bindStW.task.state = stateType.statePending ∧
    bindStW.task.hasAcceptedOffer = true ∧
    (((binderBind bindStW "h1" true true true).1 = none ∧
       ((binderBind bindStW "h1" true true true).2).task.launched = true ∧
       ((binderBind bindStW "h1" true true true).2).registry.get
         (bindStW.task.offerId.getD "") = none ∧
       Event.offerInvalidated (bindStW.task.offerId.getD "") ∈
         ((binderBind bindStW "h1" true true true).2).events)
    ∨ ((binderBind bindStW "h1" true true true).1 ≠ none ∧
       Event.offerReleased (bindStW.task.offerId.getD "") ∈
         ((binderBind bindStW "h1" true true true).2).events ∧
       ((binderBind bindStW "h1" true true true).2).task.taskInfoSet = false ∧
       ((binderBind bindStW "h1" true true true).2).task.offerId = none ∧
       ((binderBind bindStW "h1" true true true).2).task.state =
         stateType.statePending)) :=
  ⟨rfl, rfl, bind_dichotomy bindStW "h1" true true true rfl rfl⟩

/-- The scheduler state as seen through the `SchedulerInterface` capability
set: the pod-key → task-id map, the task registry (Modelled from the spec:
the Pod-Task Store maps task-id → task and tracks task states), the slave
map (slave-id → hostname), the offer registry, the delay-queue membership
(pod UIDs), and the collaborator-request trace. -/
structure SchedState where
  podToTask : List (String × String)
  tasks : List (String × PodTask)
  slaves : List (String × String)
  registry : OfferRegistry
  queued : List String
  events : List Event
deriving DecidableEq, Repr

/-- `taskForPod(podID)`: look up the task id registered for a pod-key. -/
def taskForPod (st : SchedState) (podKey : String) : Option String :=
  st.podToTask.lookup podKey

/-- `getTask(taskId)`: resolve a task id to the task and its current state
tag. -/
def getTask (st : SchedState) (tid : String) : Option (PodTask × stateType) :=
  (st.tasks.lookup tid).map (fun t => (t, t.state))

/-- `slaveFor(id)`: the hostname of a known slave. -/
def slaveFor (st : SchedState) (sid : String) : Option String :=
  st.slaves.lookup sid

/-- `registerPodTask`: record the task under both its pod-key and its task
id. -/
def registerPodTask (st : SchedState) (t : PodTask) : SchedState :=
  { st with
    podToTask := (t.podKey, t.tid) :: st.podToTask,
    tasks := (t.tid, t) :: st.tasks }

/-- `unregisterPodTask`: delete the task from both maps. -/
def unregisterPodTask (st : SchedState) (t : PodTask) : SchedState :=
  { st with
    podToTask := st.podToTask.filter (fun kv => kv.1 != t.podKey),
    tasks := st.tasks.filter (fun kv => kv.1 != t.tid) }

/-- In Go the plugin mutates the `*PodTask` shared with the registry maps;
here the update is applied to the task's entry in the registry. -/
def updateTask (st : SchedState) (tid : String) (f : PodTask → PodTask) : SchedState :=
  { st with
    tasks := st.tasks.map (fun kv => bif kv.1 == tid then (kv.1, f kv.2) else kv) }

/-- The error taxonomy of the scheduling path. -/
inductive SchedErr
| noSuchPod
| noSuitableOffers
| noSuchTask
| alreadyLaunched (tid : String)
| notPending (tid : String)
| slaveDisappeared (sid tid : String)
| driverFailure (msg : String)
deriving DecidableEq, Repr

/-- Result of `Schedule`: the selected machine's hostname, or an error. -/
inductive SchedResult
| ok (host : String)
| fail (e : SchedErr)
deriving DecidableEq, Repr

/-- `kubeScheduler.doSchedule` (plugin.go lines 269-288).  `algo` is the
outcome of the offer-matching function `k.api.algorithm()`: `none` means no
suitable offer was found. -/
def doSchedule (st : SchedState) (task : PodTask) (algo : Option Offer) :
    SchedResult × SchedState :=
  match algo with
  | none => (SchedResult.fail SchedErr.noSuitableOffers, st)
  | some offer =>
    match slaveFor st offer.slaveId with
    | none =>
      (SchedResult.fail (SchedErr.slaveDisappeared offer.slaveId task.tid),
       { updateTask st task.tid PodTask.clearTaskInfo with
         registry := st.registry.invalidate offer.oid,
         events := st.events ++
           [Event.offerReleased offer.oid, Event.offerInvalidated offer.oid] })
    | some host =>
      (SchedResult.ok host, updateTask st task.tid (fun t => t.fillTaskInfo offer))

/-- `kubeScheduler.Schedule` (plugin.go lines 226-266).  `pollDelete` is the
outcome of `podStore.Poll(name, DELETE_EVENT)` on the historical store;
`newTask` is the task `createPodTask` would build for this pod. -/
def schedule (st : SchedState) (podKey : String) (pollDelete : Bool)
    (newTask : PodTask) (algo : Option Offer) : SchedResult × SchedState :=
  match taskForPod st podKey with
  | none =>
    if pollDelete then (SchedResult.fail SchedErr.noSuchPod, st)
    else doSchedule (registerPodTask st newTask) newTask algo
  | some tid =>
    match getTask st tid with
    | some (task, stateType.statePending) =>
      if task.launched then
        (SchedResult.fail (SchedErr.alreadyLaunched tid), st)
      else
        doSchedule st task algo
    | _ => (SchedResult.fail (SchedErr.notPending tid), st)

/-- C2: when no task exists under the pod-key and the historical store shows
a pending DELETE for it, `Schedule` aborts with `noSuchPod` and the state is
returned untouched — in particular no new task is registered. -/
theorem schedule_deleted_pod (st : SchedState) (podKey : String)
    (newTask : PodTask) (algo : Option Offer)
    (hno : taskForPod st podKey = none) :
    schedule st podKey true newTask algo = (SchedResult.fail SchedErr.noSuchPod, st) := by
  simp [schedule, hno]

theorem schedule_deleted_pod_witness :
    taskForPod ⟨[], [], [], ⟨[]⟩, [], []⟩ "default/p1" = none ∧
    schedule ⟨[], [], [], ⟨[]⟩, [], []⟩ "default/p1" true
        { tid := "t1", podKey := "default/p1", offerId := none,
          taskInfoSet := false, launched := false, deleted := false,
          statusHost := "", state := stateType.statePending, acceptIds := [] }
        none
      = (SchedResult.fail SchedErr.noSuchPod, ⟨[], [], [], ⟨[]⟩, [], []⟩) :=
  ⟨rfl, schedule_deleted_pod _ _ _ _ rfl⟩

/-- C3: when the pod-key resolves to an existing task: a pending, not yet
launched task is re-run through offer matching (`doSchedule`); a pending,
already launched task makes `Schedule` fail (so it is never returned as a
successful scheduling result); a task in any other state fails with the
"not pending" error. -/
theorem schedule_existing_task (st : SchedState) (podKey tid : String)
    (task : PodTask) (pollDelete : Bool) (newTask : PodTask)
    (algo : Option Offer)
    (hmap : taskForPod st podKey = some tid)
    (htask : st.tasks.lookup tid = some task) :
    (task.state = stateType.statePending → task.launched = false →
       schedule st podKey pollDelete newTask algo = doSchedule st task algo) ∧
    (task.state = stateType.statePending → task.launched = true →
       schedule st podKey pollDelete newTask algo =
         (SchedResult.fail (SchedErr.alreadyLaunched tid), st)) ∧
    (task.state ≠ stateType.statePending →
       schedule st podKey pollDelete newTask algo =
         (SchedResult.fail (SchedErr.notPending tid), st)) := by
  have hg : getTask st tid = some (task, task.state) := by
    simp [getTask, htask]
  refine ⟨?_, ?_, ?_⟩
  · intro hstate hl
    simp [schedule, hmap, hg, hstate, hl]
  · intro hstate hl
    simp [schedule, hmap, hg, hstate, hl]
  · intro hstate
    cases hcase : task.state with
    | statePending => exact absurd hcase hstate
    | stateRunning => simp [schedule, hmap, hg, hcase]
    | stateFinished => simp [schedule, hmap, hg, hcase]

def taskW : PodTask :=
  { tid := "t1", podKey := "default/p1", offerId := none,
    taskInfoSet := false, launched := false, deleted := false,
    statusHost := "", state := stateType.statePending,
    acceptIds := ["o1"] }

def schedStW : SchedState :=
  { podToTask := [("default/p1", "t1")],
    tasks := [("t1", taskW)],
    slaves := [("s1", "hostA")],
    registry := ⟨[⟨"o1", "s1", false⟩]⟩,
    queued := [],
    events := [] }

theorem schedule_existing_task_witness :
    taskForPod schedStW "default/p1" = some "t1" ∧
    schedStW.tasks.lookup "t1" = some taskW ∧
    taskW.state = stateType.statePending ∧
    taskW.launched = false ∧
    schedule schedStW "default/p1" false taskW none =
      doSchedule schedStW taskW none :=
  ⟨rfl, rfl, rfl, rfl,
   (schedule_existing_task schedStW "default/p1" "t1" taskW false taskW none
     rfl rfl).1 rfl rfl⟩

theorem lookup_map_update (f : PodTask → PodTask) (tid : String)
    (l : List (String × PodTask)) :
    (l.map (fun kv => bif kv.1 == tid then (kv.1, f kv.2) else kv)).lookup tid =
      (l.lookup tid).map f := by
  induction l with
  | nil => rfl
  | cons kv rest ih =>
    obtain ⟨a, b⟩ := kv
    cases hbeq : a == tid with
    | true =>
      have ha : a = tid := eq_of_beq hbeq
      subst ha
      simp [List.lookup]
    | false =>
      have h2 : (tid == a) = false := by
        rw [beq_eq_false_iff_ne] at hbeq ⊢
        exact Ne.symm hbeq
      simp [List.lookup, hbeq, h2, ih]

theorem lookup_updateTask (st : SchedState) (tid : String)
    (f : PodTask → PodTask) :
    (updateTask st tid f).tasks.lookup tid = (st.tasks.lookup tid).map f :=
  lookup_map_update f tid st.tasks

/-- C4: after a successful offer match, if the chosen offer's slave is no
longer known, `doSchedule` invalidates the offer in the registry, clears the
task's TaskInfo and returns an error; if the slave is known, it fills the
task's TaskInfo from the offer and returns the slave's hostname. -/
theorem doSchedule_slave_check (st : SchedState) (task : PodTask)
    (offer : Offer)
    (htask : st.tasks.lookup task.tid = some task) :
    (slaveFor st offer.slaveId = none →
       (∃ sid tid, (doSchedule st task (some offer)).1 =
          SchedResult.fail (SchedErr.slaveDisappeared sid tid)) ∧
       ((doSchedule st task (some offer)).2).registry.get offer.oid = none ∧
       ((doSchedule st task (some offer)).2).tasks.lookup task.tid =
         some task.clearTaskInfo) ∧
    (∀ host, slaveFor st offer.slaveId = some host →
       (doSchedule st task (some offer)).1 = SchedResult.ok host ∧
       ((doSchedule st task (some offer)).2).tasks.lookup task.tid =
         some (task.fillTaskInfo offer)) := by
  constructor
  · intro hslave
    have hred : doSchedule st task (some offer) =
        (SchedResult.fail (SchedErr.slaveDisappeared offer.slaveId task.tid),
         { updateTask st task.tid PodTask.clearTaskInfo with
           registry := st.registry.invalidate offer.oid,
           events := st.events ++
             [Event.offerReleased offer.oid, Event.offerInvalidated offer.oid] }) := by
      simp [doSchedule, hslave]
    rw [hred]
    refine ⟨⟨offer.slaveId, task.tid, rfl⟩, get_invalidate_self _ _, ?_⟩
    show (updateTask st task.tid PodTask.clearTaskInfo).tasks.lookup task.tid = _
    rw [lookup_updateTask, htask]
    rfl
  · intro host hslave
    have hred : doSchedule st task (some offer) =
        (SchedResult.ok host,
         updateTask st task.tid (fun t => t.fillTaskInfo offer)) := by
      simp [doSchedule, hslave]
    rw [hred]
    refine ⟨rfl, ?_⟩
    rw [lookup_updateTask, htask]
    rfl

theorem doSchedule_slave_check_witness :
    schedStW.tasks.lookup taskW.tid = some taskW ∧
    slaveFor schedStW "s1" = some "hostA" ∧
    ((doSchedule schedStW taskW (some ⟨"o1", "s1", false⟩)).1 =
       SchedResult.ok "hostA" ∧
     ((doSchedule schedStW taskW (some ⟨"o1", "s1", false⟩)).2).tasks.lookup
         taskW.tid = some (taskW.fillTaskInfo ⟨"o1", "s1", false⟩)) :=
  ⟨rfl, rfl,
   (doSchedule_slave_check schedStW taskW ⟨"o1", "s1", false⟩ rfl).2 "hostA" rfl⟩

theorem lookup_filter_self {β : Type} (k : String) (l : List (String × β)) :
    (l.filter (fun kv => kv.1 != k)).lookup k = none := by
  induction l with
  | nil => rfl
  | cons kv rest ih =>
    obtain ⟨a, b⟩ := kv
    cases hbeq : a == k with
    | true =>
      have hb : (a != k) = false := by simp [bne, hbeq]
      simp only [List.filter, hb]
      exact ih
    | false =>
      have h2 : (k == a) = false := by
        rw [beq_eq_false_iff_ne] at hbeq ⊢
        exact Ne.symm hbeq
      have hb : (a != k) = true := by simp [bne, hbeq]
      simp only [List.filter, hb, List.lookup, h2]
      exact ih

/-- The deleter's view of a pod taken from a DELETE event: its store UID and
its pod-key. -/
structure DPod where
  uid : String
  podKey : String
deriving DecidableEq, Repr

/-- The launched-or-running branch of `deleter.deleteOne` (plugin.go lines
545-549): mark the task deleted, clear the cached pod status host, and
request `KillTask(taskId)` from the driver.  `killRes` is the driver's
response to the kill request. -/
def killPath (st : SchedState) (tid : String) (killRes : Option String) :
    Option SchedErr × SchedState :=
  (killRes.map SchedErr.driverFailure,
   { updateTask st tid (fun t => { t with deleted := true, statusHost := "" }) with
     events := st.events ++ [Event.killRequested tid] })

/-- `deleter.deleteOne` (plugin.go lines 503-554): dequeue the pod from the
delay queue, resolve the task, then unregister (pending and not launched) or
kill (pending-and-launched, or running). -/
def deleteOne (st : SchedState) (pod : DPod) (killRes : Option String) :
    Option SchedErr × SchedState :=
  let st0 := { st with queued := st.queued.filter (fun u => u != pod.uid) }
  match taskForPod st0 pod.podKey with
  | none => (some SchedErr.noSuchPod, st0)
  | some tid =>
    match st0.tasks.lookup tid with
    | none => (some SchedErr.noSuchTask, st0)
    | some task =>
      match task.state with
      | stateType.statePending =>
        match task.launched with
        | false =>
          let st1 :=
            bif task.hasAcceptedOffer then
              { updateTask st0 tid PodTask.clearTaskInfo with
                events := st0.events ++ [Event.offerReleased (task.offerId.getD "")] }
            else st0
          (none, unregisterPodTask st1 task)
        | true => killPath st0 tid killRes
      | stateType.stateRunning => killPath st0 tid killRes
      | stateType.stateFinished => (some SchedErr.noSuchTask, st0)

/-- C5: for a DELETE event, a pending and not-launched task has its offer
(if any) released, its TaskInfo cleared, and is unregistered from both maps
with no kill requested; a pending-and-launched or running task is marked
deleted, has its pod status host cleared, and a `KillTask(taskId)` is
requested from the driver; when no task resolves the deleter returns
`noSuchPod` (resp. `noSuchTask`) with the task bookkeeping untouched (only
the delay-queue dequeue has happened). -/
theorem deleteOne_spec (st : SchedState) (pod : DPod) (killRes : Option String) :
    (taskForPod st pod.podKey = none →
       deleteOne st pod killRes =
         (some SchedErr.noSuchPod,
          { st with queued := st.queued.filter (fun u => u != pod.uid) })) ∧
    (∀ tid task, taskForPod st pod.podKey = some tid →
       st.tasks.lookup tid = some task → task.tid = tid →
       task.podKey = pod.podKey →
       ((task.state = stateType.statePending → task.launched = false →
          (deleteOne st pod killRes).1 = none ∧
          ((deleteOne st pod killRes).2).tasks.lookup tid = none ∧
          ((deleteOne st pod killRes).2).podToTask.lookup pod.podKey = none ∧
          ((deleteOne st pod killRes).2).events =
            st.events ++ (bif task.hasAcceptedOffer
              then [Event.offerReleased (task.offerId.getD "")] else [])) ∧
        (task.state = stateType.statePending → task.launched = true →
          (deleteOne st pod killRes).1 = killRes.map SchedErr.driverFailure ∧
          ((deleteOne st pod killRes).2).tasks.lookup tid =
            some { task with deleted := true, statusHost := "" } ∧
          ((deleteOne st pod killRes).2).events =
            st.events ++ [Event.killRequested tid]) ∧
        (task.state = stateType.stateRunning →
          (deleteOne st pod killRes).1 = killRes.map SchedErr.driverFailure ∧
          ((deleteOne st pod killRes).2).tasks.lookup tid =
            some { task with deleted := true, statusHost := "" } ∧
          ((deleteOne st pod killRes).2).events =
            st.events ++ [Event.killRequested tid]) ∧
        (task.state = stateType.stateFinished →
          deleteOne st pod killRes =
            (some SchedErr.noSuchTask,
             { st with queued := st.queued.filter (fun u => u != pod.uid) })))) := by
  constructor
  · intro hno
    have hno0 : taskForPod
        { st with queued := st.queued.filter (fun u => u != pod.uid) } pod.podKey =
        none := hno
    simp [deleteOne, hno0]
  · intro tid task hmap htask htid hkey
    have hmap0 : taskForPod
        { st with queued := st.queued.filter (fun u => u != pod.uid) } pod.podKey =
        some tid := hmap
    refine ⟨?_, ?_, ?_, ?_⟩
    · intro hstate hl
      have hred : deleteOne st pod killRes =
          (none, unregisterPodTask
            (bif task.hasAcceptedOffer then
              { updateTask { st with queued := st.queued.filter (fun u => u != pod.uid) }
                  tid PodTask.clearTaskInfo with
                events := st.events ++ [Event.offerReleased (task.offerId.getD "")] }
             else { st with queued := st.queued.filter (fun u => u != pod.uid) })
            task) := by
        simp [deleteOne, hmap0, htask, hstate, hl]
      rw [hred]
      cases hacc : task.hasAcceptedOffer with
      | true =>
        refine ⟨rfl, ?_, ?_, ?_⟩
        · rw [← htid]
          exact lookup_filter_self task.tid _
        · rw [← hkey]
          exact lookup_filter_self task.podKey _
        · simp [unregisterPodTask]
      | false =>
        refine ⟨rfl, ?_, ?_, ?_⟩
        · rw [← htid]
          exact lookup_filter_self task.tid _
        · rw [← hkey]
          exact lookup_filter_self task.podKey _
        · simp [unregisterPodTask]
    · intro hstate hl
      have hred : deleteOne st pod killRes =
          (killRes.map SchedErr.driverFailure,
           { updateTask { st with queued := st.queued.filter (fun u => u != pod.uid) }
               tid (fun t => { t with deleted := true, statusHost := "" }) with
             events := st.events ++ [Event.killRequested tid] }) := by
        simp [deleteOne, killPath, hmap0, htask, hstate, hl]
      rw [hred]
      refine ⟨rfl, ?_, rfl⟩
      show (updateTask { st with queued := st.queued.filter (fun u => u != pod.uid) }
        tid (fun t => { t with deleted := true, statusHost := "" })).tasks.lookup tid = _
      rw [lookup_updateTask]
      show ((st.tasks.lookup tid).map _) = _
      rw [htask]
      rfl
    · intro hstate
      have hred : deleteOne st pod killRes =
          (killRes.map SchedErr.driverFailure,
           { updateTask { st with queued := st.queued.filter (fun u => u != pod.uid) }
               tid (fun t => { t with deleted := true, statusHost := "" }) with
             events := st.events ++ [Event.killRequested tid] }) := by
        simp [deleteOne, killPath, hmap0, htask, hstate]
      rw [hred]
      refine ⟨rfl, ?_, rfl⟩
      show (updateTask { st with queued := st.queued.filter (fun u => u != pod.uid) }
        tid (fun t => { t with deleted := true, statusHost := "" })).tasks.lookup tid = _
      rw [lookup_updateTask]
      show ((st.tasks.lookup tid).map _) = _
      rw [htask]
      rfl
    · intro hstate
      simp [deleteOne, hmap0, htask, hstate]

def delPodW : DPod := ⟨"uid1", "default/p1"⟩

theorem deleteOne_spec_witness :
    taskForPod schedStW delPodW.podKey = some "t1" ∧
    schedStW.tasks.lookup "t1" = some taskW ∧
    taskW.tid = "t1" ∧ taskW.podKey = delPodW.podKey ∧
    taskW.state = stateType.statePending ∧ taskW.launched = false ∧
    ((deleteOne schedStW delPodW none).1 = none ∧
     ((deleteOne schedStW delPodW none).2).tasks.lookup "t1" = none ∧
     ((deleteOne schedStW delPodW none).2).podToTask.lookup delPodW.podKey = none ∧
     ((deleteOne schedStW delPodW none).2).events =
       schedStW.events ++ (bif taskW.hasAcceptedOffer
         then [Event.offerReleased (taskW.offerId.getD "")] else [])) :=
  ⟨rfl, rfl, rfl, rfl, rfl, rfl,
   ((deleteOne_spec schedStW delPodW none).2 "t1" taskW rfl rfl rfl rfl).1 rfl rfl⟩

/-- A pod wrapper as re-queued by the error handler: pod-key, backoff delay,
and the optional break-out notify channel (identified by the pod-key the
offer listener was registered under). -/
structure RequeuedPod where
  podKey : String
  delay : Nat
  notify : Option String
deriving DecidableEq, Repr

/-- The observable outcome of `errorHandler.handleSchedulingError`: the pod
re-queued to the delay queue (if any), the offer-arrival listener registered
with the offer registry (pod-key it is keyed by, together with the task id
its predicate captured), and whether the backoff table was GCed. -/
structure HandlerOut where
  requeued : Option RequeuedPod
  listener : Option (String × String)
  backoffGCed : Bool
deriving DecidableEq, Repr

/-- The offer-arrival listener predicate registered by the error handler
(plugin.go lines 463-471): under the scheduler read lock, re-resolve the
captured task id against the then-current state; the offer matches iff the
task is still pending, not launched, and accepts the offer. -/
def listenerPred (st : SchedState) (tid : String) (o : Offer) : Bool :=
  match st.tasks.lookup tid with
  | some t =>
    match t.state with
    | stateType.statePending => !t.launched && t.acceptOffer o
    | _ => false
  | none => false

/-- `errorHandler.handleSchedulingError` (plugin.go lines 425-478).
`backoff` gives the current backoff delay per pod-key
(`k.backoff.getBackoff(podKey)`). -/
def handleSchedulingError (st : SchedState) (podKey : String) (err : SchedErr)
    (backoff : String → Nat) : HandlerOut :=
  if err = SchedErr.noSuchPod then ⟨none, none, false⟩
  else
    match taskForPod st podKey with
    | none => ⟨none, none, true⟩
    | some tid =>
      match st.tasks.lookup tid with
      | none => ⟨none, none, true⟩
      | some task =>
        match task.state with
        | stateType.statePending =>
          match task.launched with
          | true => ⟨none, none, true⟩
          | false =>
            ⟨some ⟨podKey, backoff podKey,
               if err = SchedErr.noSuitableOffers then some podKey else none⟩,
             if err = SchedErr.noSuitableOffers then some (podKey, tid) else none,
             true⟩
        | _ => ⟨none, none, true⟩

/-- C6: a `noSuchPod` scheduling error is dropped without requeueing; a pod
whose task is pending and not launched is requeued with the current backoff
delay, and exactly when the error is `noSuitableOffers` an offer listener
keyed by the pod-key is registered with its break channel attached to the
requeued Pod's notify field; the registered listener's predicate holds iff
the task is still pending, not launched and accepts the offer. -/
theorem handleSchedulingError_spec (st : SchedState) (podKey : String)
    (err : SchedErr) (backoff : String → Nat) :
    (err = SchedErr.noSuchPod →
       handleSchedulingError st podKey err backoff = ⟨none, none, false⟩) ∧
    (∀ tid task, err ≠ SchedErr.noSuchPod →
       taskForPod st podKey = some tid →
       st.tasks.lookup tid = some task →
       task.state = stateType.statePending → task.launched = false →
       handleSchedulingError st podKey err backoff =
         ⟨some ⟨podKey, backoff podKey,
            if err = SchedErr.noSuitableOffers then some podKey else none⟩,
          if err = SchedErr.noSuitableOffers then some (podKey, tid) else none,
          true⟩) ∧
    (∀ st2 tid o, listenerPred st2 tid o = true ↔
       ∃ t, st2.tasks.lookup tid = some t ∧ t.state = stateType.statePending ∧
            t.launched = false ∧ t.acceptOffer o = true) := by
  refine ⟨?_, ?_, ?_⟩
  · intro h
    simp [handleSchedulingError, h]
  · intro tid task hne hmap htask hstate hl
    simp [handleSchedulingError, hne, hmap, htask, hstate, hl]
  · intro st2 tid o
    unfold listenerPred
    cases hlk : st2.tasks.lookup tid with
    | none => simp
    | some t =>
      cases hs : t.state with
      | statePending => simp [hs]
      | stateRunning => simp [hs]
      | stateFinished => simp [hs]

theorem handleSchedulingError_spec_witness :
    (SchedErr.noSuitableOffers ≠ SchedErr.noSuchPod) ∧
    taskForPod schedStW "default/p1" = some "t1" ∧
    schedStW.tasks.lookup "t1" = some taskW ∧
    taskW.state = stateType.statePending ∧ taskW.launched = false ∧
    handleSchedulingError schedStW "default/p1" SchedErr.noSuitableOffers
        (fun _ => 1) =
      ⟨some ⟨"default/p1", 1, some "default/p1"⟩,
       some ("default/p1", "t1"), true⟩ :=
  ⟨by decide, rfl, rfl, rfl, rfl,
   (handleSchedulingError_spec schedStW "default/p1" SchedErr.noSuitableOffers
     (fun _ => 1)).2.1 "t1" taskW (by decide) rfl rfl rfl rfl⟩

end KMS

namespace KEX

/-- A bound pod as the executor unmarshals it from the task payload. -/
structure BoundPod where
  name : String
  nspace : String
deriving DecidableEq, Repr

/-- A mesos TaskInfo as seen by the executor: the task id, and the outcome of
extracting the YAML bound pod from `taskInfo.GetData()` (`none` means
`yaml.Unmarshal` fails). -/
structure TaskInfo where
  tid : String
  data : Option BoundPod
deriving DecidableEq, Repr

/-- The mesos task states the executor sends. -/
inductive TaskState
| TASK_RUNNING
| TASK_FAILED
| TASK_KILLED
| TASK_LOST
deriving DecidableEq, Repr

/-- The kubelet update-channel operations. -/
inductive KOp
| SET
| ADD
| REMOVE
| UPDATE
deriving DecidableEq, Repr

/-- A `kubelet.PodUpdate` message pushed on the executor's update channel. -/
structure PodUpdate where
  op : KOp
  pods : List BoundPod
deriving DecidableEq, Repr

/-- A status update sent through `driver.SendStatusUpdate`. -/
structure StatusUpdate where
  tid : String
  state : TaskState
  message : String
deriving DecidableEq, Repr

/-- `kuberTask`: the executor's record for a launched task. -/
structure KuberTask where
  info : TaskInfo
  podName : String
deriving DecidableEq, Repr

/-- The `KubernetesExecutor` bookkeeping: the `registered` flag, the task-id →
kuberTask map and the pod-full-name → bound-pod map. -/
structure ExecState where
  registered : Bool
  tasks : List (String × KuberTask)
  pods : List (String × BoundPod)
deriving DecidableEq, Repr

/-- The observable outcome of one executor callback: the new bookkeeping,
the status updates sent to the driver, and the pod updates pushed on the
update channel, in order. -/
structure ExecOut where
  st : ExecState
  statusSent : List StatusUpdate
  pushed : List PodUpdate
deriving DecidableEq, Repr

/-- Modelled from the spec: `kubelet.GetPodFullName` over the bound pod the
executor builds (name, namespace, and the executor source-name annotation);
the helper lives in the upstream kubelet package, not under src/. -/
def podFullName (name nspace source : String) : String :=
  name ++ "." ++ nspace ++ "." ++ source

/-- `KubernetesExecutor.LaunchTask` (executor.go): reject when not
registered (TASK_FAILED), ignore duplicates silently, reject payloads whose
YAML extraction fails (TASK_FAILED), otherwise record the task and pod and
push the complete bound-pod set with operation SET.  The asynchronous
running-status watcher it spawns is not part of this synchronous step. -/
def launchTask (st : ExecState) (source : String) (ti : TaskInfo) : ExecOut :=
  bif !st.registered then
    ⟨st, [⟨ti.tid, TaskState.TASK_FAILED, "Executor not registered yet"⟩], []⟩
  else bif (st.tasks.lookup ti.tid).isSome then
    ⟨st, [], []⟩
  else
    match ti.data with
    | none => ⟨st, [⟨ti.tid, TaskState.TASK_FAILED, "Failed to extract yaml data"⟩], []⟩
    | some pod =>
      let fullName := podFullName pod.name pod.nspace source
      let tasks1 := (ti.tid, (⟨ti, fullName⟩ : KuberTask)) :: st.tasks
      let pods1 := (fullName, pod) :: st.pods
      ⟨⟨st.registered, tasks1, pods1⟩, [], [⟨KOp.SET, pods1.map Prod.snd⟩]⟩

/-- `KubernetesExecutor.killPodForTask` (executor.go): unknown tasks are a
no-op; otherwise remove the task, remove its pod (pushing the remaining set
with operation SET when the pod was known), and send TASK_KILLED. -/
def killPodForTask (st : ExecState) (tid reason : String) : ExecOut :=
  match st.tasks.lookup tid with
  | none => ⟨st, [], []⟩
  | some task =>
    let st1 : ExecState :=
      ⟨st.registered, st.tasks.filter (fun kv => kv.1 != tid), st.pods⟩
    match st1.pods.lookup task.podName with
    | none => ⟨st1, [⟨task.info.tid, TaskState.TASK_KILLED, reason⟩], []⟩
    | some _ =>
      let pods1 := st1.pods.filter (fun kv => kv.1 != task.podName)
      ⟨⟨st1.registered, st1.tasks, pods1⟩,
       [⟨task.info.tid, TaskState.TASK_KILLED, reason⟩],
       [⟨KOp.SET, pods1.map Prod.snd⟩]⟩

/-- `KubernetesExecutor.reportLostTask` (executor.go): identical to
`killPodForTask` except that the status sent is TASK_LOST. -/
def reportLostTask (st : ExecState) (tid reason : String) : ExecOut :=
  match st.tasks.lookup tid with
  | none => ⟨st, [], []⟩
  | some task =>
    let st1 : ExecState :=
      ⟨st.registered, st.tasks.filter (fun kv => kv.1 != tid), st.pods⟩
    match st1.pods.lookup task.podName with
    | none => ⟨st1, [⟨task.info.tid, TaskState.TASK_LOST, reason⟩], []⟩
    | some _ =>
      let pods1 := st1.pods.filter (fun kv => kv.1 != task.podName)
      ⟨⟨st1.registered, st1.tasks, pods1⟩,
       [⟨task.info.tid, TaskState.TASK_LOST, reason⟩],
       [⟨KOp.SET, pods1.map Prod.snd⟩]⟩

/-- `KubernetesExecutor.KillTask` (executor.go): ignore when not registered
(no status emitted), otherwise delegate to `killPodForTask` with reason
"Task killed". -/
def killTaskCb (st : ExecState) (tid : String) : ExecOut :=
  bif !st.registered then ⟨st, [], []⟩
  else killPodForTask st tid "Task killed"

/-- C7: `LaunchTask` sends TASK_FAILED and records nothing when the executor
is not registered; a duplicate task id is ignored silently (no status
update, no state change, no push); a payload whose YAML extraction fails
yields TASK_FAILED with nothing recorded. -/
theorem launchTask_rejections (st : ExecState) (source : String)
    (ti : TaskInfo) :
    (st.registered = false →
       launchTask st source ti =
         ⟨st, [⟨ti.tid, TaskState.TASK_FAILED, "Executor not registered yet"⟩], []⟩) ∧
    (st.registered = true → (st.tasks.lookup ti.tid).isSome = true →
       launchTask st source ti = ⟨st, [], []⟩) ∧
    (st.registered = true → st.tasks.lookup ti.tid = none → ti.data = none →
       launchTask st source ti =
         ⟨st, [⟨ti.tid, TaskState.TASK_FAILED, "Failed to extract yaml data"⟩], []⟩) := by
  refine ⟨?_, ?_, ?_⟩
  · intro hreg
    simp [launchTask, hreg]
  · intro hreg hdup
    simp [launchTask, hreg, hdup]
  · intro hreg hdup hdata
    simp [launchTask, hreg, hdup, hdata]

theorem launchTask_rejections_witness :
    (false = false →
       launchTask ⟨false, [], []⟩ "src" ⟨"t1", none⟩ =
         ⟨⟨false, [], []⟩,
          [⟨"t1", TaskState.TASK_FAILED, "Executor not registered yet"⟩], []⟩) ∧
    ((⟨false, [], []⟩ : ExecState).registered = false) :=
  ⟨fun _ => (launchTask_rejections ⟨false, [], []⟩ "src" ⟨"t1", none⟩).1 rfl, rfl⟩

/-- C8: every update the executor pushes on the kubelet update channel —
from `LaunchTask`, `killPodForTask` or `reportLostTask` — carries operation
SET together with the complete bound-pods map as it stands when the update
is built; no partial (ADD/REMOVE/UPDATE) message is ever produced. -/
theorem pushes_are_full_sets (st : ExecState) (source tid reason : String)
    (ti : TaskInfo) :
    (∀ u, u ∈ (launchTask st source ti).pushed →
       u.op = KOp.SET ∧ u.pods = ((launchTask st source ti).st).pods.map Prod.snd) ∧
    (∀ u, u ∈ (killPodForTask st tid reason).pushed →
       u.op = KOp.SET ∧ u.pods = ((killPodForTask st tid reason).st).pods.map Prod.snd) ∧
    (∀ u, u ∈ (reportLostTask st tid reason).pushed →
       u.op = KOp.SET ∧ u.pods = ((reportLostTask st tid reason).st).pods.map Prod.snd) := by
  refine ⟨?_, ?_, ?_⟩
  · intro u hu
    unfold launchTask at hu ⊢
    cases hreg : st.registered with
    | false => simp [hreg] at hu
    | true =>
      cases hdup : (st.tasks.lookup ti.tid).isSome with
      | true => simp [hreg, hdup] at hu
      | false =>
        cases hdata : ti.data with
        | none => simp [hreg, hdup, hdata] at hu
        | some pod =>
          simp [hreg, hdup, hdata] at hu ⊢
          simp [hu]
  · intro u hu
    unfold killPodForTask at hu ⊢
    cases htsk : st.tasks.lookup tid with
    | none => simp [htsk] at hu
    | some task =>
      cases hpod : (st.pods.lookup task.podName) with
      | none => simp [htsk, hpod] at hu
      | some p =>
        simp [htsk, hpod] at hu ⊢
        simp [hu]
  · intro u hu
    unfold reportLostTask at hu ⊢
    cases htsk : st.tasks.lookup tid with
    | none => simp [htsk] at hu
    | some task =>
      cases hpod : (st.pods.lookup task.podName) with
      | none => simp [htsk, hpod] at hu
      | some p =>
        simp [htsk, hpod] at hu ⊢
        simp [hu]

def exStW : ExecState :=
  ⟨true, [("t1", ⟨⟨"t1", some ⟨"p1", "ns"⟩⟩, "p1.ns.src"⟩)], [("p1.ns.src", ⟨"p1", "ns"⟩)]⟩

theorem exStW_push : (⟨KOp.SET, []⟩ : PodUpdate) ∈ (killPodForTask exStW "t1" "r").pushed := by
  rw [show (killPodForTask exStW "t1" "r").pushed = [⟨KOp.SET, []⟩] by rfl]
  exact List.mem_singleton.mpr rfl

theorem pushes_are_full_sets_witness :
    (⟨KOp.SET, []⟩ : PodUpdate) ∈ (killPodForTask exStW "t1" "r").pushed ∧
    ((⟨KOp.SET, []⟩ : PodUpdate).op = KOp.SET ∧
     (⟨KOp.SET, []⟩ : PodUpdate).pods =
       ((killPodForTask exStW "t1" "r").st).pods.map Prod.snd) :=
  ⟨exStW_push,
   (pushes_are_full_sets exStW "src" "t1" "r" ⟨"t1", none⟩).2.1
     ⟨KOp.SET, []⟩ exStW_push⟩

/-- C10: for a task id absent from the executor's task map, both
`killPodForTask` and `reportLostTask` are no-ops — bookkeeping unchanged, no
update pushed, no status sent — and consequently the `KillTask` callback for
an unknown task emits no TASK_KILLED. -/
theorem unknown_task_noop (st : ExecState) (tid reason : String)
    (habsent : st.tasks.lookup tid = none) :
    killPodForTask st tid reason = ⟨st, [], []⟩ ∧
    reportLostTask st tid reason = ⟨st, [], []⟩ ∧
    (killTaskCb st tid).statusSent = [] := by
  refine ⟨?_, ?_, ?_⟩
  · simp [killPodForTask, habsent]
  · simp [reportLostTask, habsent]
  · cases hreg : st.registered with
    | false => simp [killTaskCb, hreg]
    | true => simp [killTaskCb, killPodForTask, hreg, habsent]

theorem unknown_task_noop_witness :
    (exStW.tasks.lookup "t9" = none) ∧
    (killPodForTask exStW "t9" "r" = ⟨exStW, [], []⟩ ∧
     reportLostTask exStW "t9" "r" = ⟨exStW, [], []⟩ ∧
     (killTaskCb exStW "t9").statusSent = []) :=
  ⟨by decide, unknown_task_noop exStW "t9" "r" (by decide)⟩

end KEX

namespace KMC

/-!
`mesosClient.httpDo` (pkg/cloud/mesos/client.go lines 161-173) runs the
HTTP request in a goroutine that sends the handler's result on a buffered
channel `ch` (capacity 1), then selects between `ctx.Done()` and `ch`.  On
the cancellation branch it calls `tr.CancelRequest(req)`, drains `ch`
(waiting for the in-flight handler to return), and returns `ctx.Err()`;
on the other branch it returns the handler's result.  The interleaving of
the goroutine, the context and the selecting caller is modelled as a small
transition system.
-/

/-- Program counter of the caller executing `httpDo`: in the select, in the
post-cancel drain (`<-ch`), or returned (with the context's error, or with
the handler's own result). -/
inductive MainPC
| selecting
| draining
| retCtxErr
| retHandler
deriving DecidableEq, Repr

/-- A global state of `httpDo`: whether the handler goroutine has returned
(and deposited its result in the buffered channel), whether the channel
still holds the undelivered result, whether the context has been cancelled,
whether `tr.CancelRequest(req)` has been issued, and the caller's program
counter. -/
structure HState where
  handlerDone : Bool
  chHasValue : Bool
  ctxDone : Bool
  cancelled : Bool
  pc : MainPC
deriving DecidableEq, Repr

/-- Initial state: request in flight, nothing delivered, select pending. -/
def initH : HState := ⟨false, false, false, false, MainPC.selecting⟩

/-- One interleaved step of `httpDo`: the handler goroutine returning (the
send on the buffered channel never blocks), the context firing, the select
taking the `ctx.Done()` branch (issuing `CancelRequest` and moving to the
drain), the select taking the `ch` branch (returning the handler's result),
and the drain receiving the handler's value (returning `ctx.Err()`). -/
inductive HStep : HState → HState → Prop
| handlerReturns (s : HState) (h : s.handlerDone = false) :
    HStep s { s with handlerDone := true, chHasValue := true }
| ctxFires (s : HState) (h : s.ctxDone = false) :
    HStep s { s with ctxDone := true }
| selectCtx (s : HState) (h1 : s.pc = MainPC.selecting) (h2 : s.ctxDone = true) :
    HStep s { s with cancelled := true, pc := MainPC.draining }
| selectCh (s : HState) (h1 : s.pc = MainPC.selecting) (h2 : s.chHasValue = true) :
    HStep s { s with chHasValue := false, pc := MainPC.retHandler }
| drainCh (s : HState) (h1 : s.pc = MainPC.draining) (h2 : s.chHasValue = true) :
    HStep s { s with chHasValue := false, pc := MainPC.retCtxErr }

/-- States reachable from `initH` by interleaved execution. -/
inductive HReach : HState → Prop
| init : HReach initH
| step (s t : HState) : HReach s → HStep s t → HReach t

theorem hreach_invariant (s : HState) (hr : HReach s) :
    (s.chHasValue = true → s.handlerDone = true) ∧
    (s.pc = MainPC.selecting → s.cancelled = false) ∧
    (s.pc = MainPC.draining → s.cancelled = true) ∧
    (s.pc = MainPC.retCtxErr → s.cancelled = true ∧ s.handlerDone = true) ∧
    (s.pc = MainPC.retHandler → s.handlerDone = true ∧ s.cancelled = false) := by
  induction hr with
  | init => simp [initH]
  | step s t _ hstep ih =>
    cases hstep with
    | handlerReturns h =>
      refine ⟨?_, ?_, ?_, ?_, ?_⟩ <;> simp_all
    | ctxFires h =>
      refine ⟨?_, ?_, ?_, ?_, ?_⟩ <;> simp_all
    | selectCtx h1 h2 =>
      refine ⟨?_, ?_, ?_, ?_, ?_⟩ <;> simp_all
    | selectCh h1 h2 =>
      refine ⟨?_, ?_, ?_, ?_, ?_⟩ <;> simp_all
    | drainCh h1 h2 =>
      refine ⟨?_, ?_, ?_, ?_, ?_⟩ <;> simp_all

/-- C9: in every reachable state of `httpDo`, if the caller has returned the
context's error then the request was aborted (`CancelRequest` was issued)
and the in-flight handler goroutine had already returned — the drain
completed before `httpDo` returned; if the caller has returned on the
handler branch, the handler's own result is what is returned and no abort
was issued. -/
theorem httpDo_cancel_drains (s : HState) (hr : HReach s) :
    (s.pc = MainPC.retCtxErr → s.cancelled = true ∧ s.handlerDone = true) ∧
    (s.pc = MainPC.retHandler → s.handlerDone = true ∧ s.cancelled = false) :=
  ⟨(hreach_invariant s hr).2.2.2.1, (hreach_invariant s hr).2.2.2.2⟩

def cancelledEndH : HState := ⟨true, false, true, true, MainPC.retCtxErr⟩

theorem cancelledEndH_reachable : HReach cancelledEndH := by
  have h1 : HStep initH ⟨false, false, true, false, MainPC.selecting⟩ :=
    HStep.ctxFires initH rfl
  have h2 : HStep ⟨false, false, true, false, MainPC.selecting⟩
      ⟨false, false, true, true, MainPC.draining⟩ :=
    HStep.selectCtx _ rfl rfl
  have h3 : HStep ⟨false, false, true, true, MainPC.draining⟩
      ⟨true, true, true, true, MainPC.draining⟩ :=
    HStep.handlerReturns _ rfl
  have h4 : HStep ⟨true, true, true, true, MainPC.draining⟩ cancelledEndH :=
    HStep.drainCh _ rfl rfl
  exact HReach.step _ _ (HReach.step _ _ (HReach.step _ _
    (HReach.step _ _ HReach.init h1) h2) h3) h4

theorem httpDo_cancel_drains_witness :
    cancelledEndH.pc = MainPC.retCtxErr ∧
    (cancelledEndH.cancelled = true ∧ cancelledEndH.handlerDone = true) :=
  ⟨rfl, (httpDo_cancel_drains cancelledEndH cancelledEndH_reachable).1 rfl⟩

end KMC
